import Mathlib

/-!
Verification of the Top-N voting engine (`src/track/voting/topn.rs`).

Shallow embedding of the `TopNVoting` engine of the `similari` crate.
The engine consumes a list of `ObservationMetricResult` triples
`(track, f_attr_dist, feat_dist)` and produces a ranked, bounded list of
`TopNVotingElt` values, exactly following `TopNVoting::winners`:

1. filter: keep candidates whose `feat_dist` is `Some e` with
   `e <= max_distance` (IEEE comparison: `false` when `e` is NaN);
2. sort the retained track ids;
3. count occurrences per track id (itertools `counts`, a hash map from
   each distinct id to its multiplicity; the emission order of the map is
   unspecified in Rust — the canonical model fixes the ascending-id order
   obtained from the sorted list, which the stable descending ranking sort
   then preserves inside every tie class, while the `From`-suffixed
   definitions further down parameterize the tail of the pipeline by an
   arbitrary emission order, capturing the per-call randomized iteration
   order of the Rust hash map);
4. drop ids whose count is below `min_votes`;
5. sort by vote count descending and truncate to `topn`.

Floats are modelled as `F32`: either NaN or an exact rational value; the
source code only compares distances with `<=`, never does arithmetic on
them, so this captures every behaviour the engine observes.  Sorting is
modelled with `List.insertionSort`, a deterministic comparison sort.
-/

/-- Model of `f32` as observed by the engine: a NaN payload or an exact
rational value.  The engine only ever applies `<=` to distances. -/
inductive F32 : Type where
  | nan : F32
  | val : ℚ → F32
deriving DecidableEq

/-- IEEE `<=` on the `F32` model: any comparison involving NaN is `false`;
on ordinary values it is the numeric order. -/
def F32.fle : F32 → F32 → Bool
  | F32.val a, F32.val b => decide (a ≤ b)
  | _, _ => false

/-- Model of `ObservationMetricResult<f32>`: `(track_id, feature attribute distance,
feature distance)`.  The track id is a `u64` used only as an opaque key,
modelled by `ℕ`. -/
structure ObservationMetricResult : Type where
  track : ℕ
  f_attr_dist : Option F32
  feat_dist : Option F32
deriving DecidableEq

/-- Configuration of the `TopNVoting` engine (`new(topn, max_distance,
min_votes)`; no validation is performed on the arguments). -/
structure TopNVoting : Type where
  topn : ℕ
  max_distance : F32
  min_votes : ℕ

/-- Output element `TopNVotingElt { track_id, votes }`. -/
structure TopNVotingElt : Type where
  track_id : ℕ
  votes : ℕ
deriving DecidableEq

/-- Constructor `TopNVotingElt::new`. -/
def TopNVotingElt.new (track_id votes : ℕ) : TopNVotingElt :=
  { track_id := track_id, votes := votes }

/-- The filter closure of `winners`:
`match feat_dist { Some(e) => *e <= self.max_distance, _ => false }`. -/
def passesFilter (cfg : TopNVoting) (o : ObservationMetricResult) : Bool :=
  match o.feat_dist with
  | some e => F32.fle e cfg.max_distance
  | none => false

/-- The `tracks` local of `winners` before sorting: the track ids of the
candidates retained by the filter. -/
def filteredTracks (cfg : TopNVoting) (distances : List ObservationMetricResult) : List ℕ :=
  (distances.filter (passesFilter cfg)).map ObservationMetricResult.track

/-- Model of `tracks.sort_unstable()`: the retained ids in ascending order. -/
def sortedTracks (cfg : TopNVoting) (distances : List ObservationMetricResult) : List ℕ :=
  List.insertionSort (· ≤ ·) (filteredTracks cfg distances)

/-- itertools `counts()` on the sorted id list: one `(id, multiplicity)`
pair per distinct id.  The hash-map emission order is unspecified in the
source; the model emits ids in ascending order. -/
def voteCounts (cfg : TopNVoting) (distances : List ObservationMetricResult) : List (ℕ × ℕ) :=
  (sortedTracks cfg distances).dedup.map
    (fun t => (t, (sortedTracks cfg distances).count t))

/-- The `counts` local of `winners` after the `min_votes` filter and the
conversion to `TopNVotingElt`. -/
def thresholded (cfg : TopNVoting) (distances : List ObservationMetricResult) :
    List TopNVotingElt :=
  ((voteCounts cfg distances).filter (fun p => cfg.min_votes ≤ p.2)).map
    (fun p => TopNVotingElt.new p.1 p.2)

/-- The ranking order of `counts.sort_by(|l, r| r.votes.partial_cmp(&l.votes).unwrap())`:
`l` precedes `r` when `r.votes <= l.votes` (vote count descending). -/
def byVotesDesc (l r : TopNVotingElt) : Prop :=
  r.votes ≤ l.votes

instance : DecidableRel byVotesDesc := fun l r => by
  unfold byVotesDesc; infer_instance

instance : IsTotal TopNVotingElt byVotesDesc :=
  ⟨fun l r => Nat.le_total r.votes l.votes⟩

instance : IsTrans TopNVotingElt byVotesDesc :=
  ⟨fun _ _ _ h h' => Nat.le_trans h' h⟩

/-- The ranked vote list, before truncation. -/
def ranked (cfg : TopNVoting) (distances : List ObservationMetricResult) :
    List TopNVotingElt :=
  List.insertionSort byVotesDesc (thresholded cfg distances)

/-- Model of `TopNVoting::winners`: filter, sort, count, threshold, rank, truncate. -/
def winners (cfg : TopNVoting) (distances : List ObservationMetricResult) :
    List TopNVotingElt :=
  (ranked cfg distances).take cfg.topn

/-- Model of Rust partial comparison on the `usize` vote counts, as derived
for a total order:
it always returns `Some`. -/
def natPartialCmp (a b : ℕ) : Option Ordering :=
  if a < b then some Ordering.lt
  else if a = b then some Ordering.eq
  else some Ordering.gt

/-- The comparator of the ranking sort before its `unwrap`:
`r.votes.partial_cmp(&l.votes)`. -/
def rankCmp (l r : TopNVotingElt) : Option Ordering :=
  natPartialCmp r.votes l.votes

/-- The rational value 0.2 (kernel-reducible representation). -/
def q02 : ℚ := Rat.mk' 1 5 (by decide) (by decide)

/-- The rational value 0.32 (kernel-reducible representation). -/
def q032 : ℚ := Rat.mk' 8 25 (by decide) (by decide)

/-! ## Stage lemmas -/

lemma sortedTracks_perm (cfg : TopNVoting) (ds : List ObservationMetricResult) :
    (sortedTracks cfg ds).Perm (filteredTracks cfg ds) :=
  List.perm_insertionSort _ _

lemma sortedTracks_sorted (cfg : TopNVoting) (ds : List ObservationMetricResult) :
    List.Sorted (· ≤ ·) (sortedTracks cfg ds) :=
  List.sorted_insertionSort _ _

lemma mem_voteCounts (cfg : TopNVoting) (ds : List ObservationMetricResult) (t c : ℕ) :
    (t, c) ∈ voteCounts cfg ds ↔
      t ∈ filteredTracks cfg ds ∧ c = (filteredTracks cfg ds).count t := by
  unfold voteCounts
  rw [List.mem_map]
  constructor
  · rintro ⟨a, ha, heq⟩
    obtain ⟨rfl, rfl⟩ : a = t ∧ (sortedTracks cfg ds).count a = c := by
      have h1 := congrArg Prod.fst heq
      have h2 := congrArg Prod.snd heq
      exact ⟨h1, h2⟩
    rw [List.mem_dedup] at ha
    exact ⟨(sortedTracks_perm cfg ds).mem_iff.mp ha,
      (sortedTracks_perm cfg ds).count_eq _⟩
  · rintro ⟨ht, rfl⟩
    refine ⟨t, ?_, ?_⟩
    · rw [List.mem_dedup]
      exact (sortedTracks_perm cfg ds).mem_iff.mpr ht
    · rw [(sortedTracks_perm cfg ds).count_eq t]

lemma mem_thresholded (cfg : TopNVoting) (ds : List ObservationMetricResult)
    (e : TopNVotingElt) :
    e ∈ thresholded cfg ds ↔
      e.track_id ∈ filteredTracks cfg ds ∧
      e.votes = (filteredTracks cfg ds).count e.track_id ∧
      cfg.min_votes ≤ e.votes := by
  unfold thresholded
  rw [List.mem_map]
  constructor
  · rintro ⟨p, hp, rfl⟩
    rw [List.mem_filter] at hp
    obtain ⟨hpc, hmin⟩ := hp
    have h := (mem_voteCounts cfg ds p.1 p.2).mp hpc
    exact ⟨h.1, h.2, by simpa using hmin⟩
  · rintro ⟨ht, hc, hmin⟩
    refine ⟨(e.track_id, e.votes), ?_, rfl⟩
    rw [List.mem_filter]
    exact ⟨(mem_voteCounts cfg ds e.track_id e.votes).mpr ⟨ht, hc⟩, by simpa using hmin⟩

lemma ranked_perm (cfg : TopNVoting) (ds : List ObservationMetricResult) :
    (ranked cfg ds).Perm (thresholded cfg ds) :=
  List.perm_insertionSort _ _

lemma mem_of_mem_winners (cfg : TopNVoting) (ds : List ObservationMetricResult)
    (e : TopNVotingElt) (h : e ∈ winners cfg ds) : e ∈ thresholded cfg ds :=
  (ranked_perm cfg ds).mem_iff.mp ((List.take_sublist _ _).mem h)

lemma thresholded_keys_nodup (cfg : TopNVoting) (ds : List ObservationMetricResult) :
    ((thresholded cfg ds).map TopNVotingElt.track_id).Nodup := by
  unfold thresholded
  rw [List.map_map]
  have hkeys : ((voteCounts cfg ds).map Prod.fst).Nodup := by
    unfold voteCounts
    rw [List.map_map]
    have : (Prod.fst ∘ fun t => (t, (sortedTracks cfg ds).count t)) = id := rfl
    rw [this, List.map_id]
    exact List.nodup_dedup _
  have hsub : (((voteCounts cfg ds).filter (fun p => cfg.min_votes ≤ p.2)).map
      (TopNVotingElt.track_id ∘ fun p => TopNVotingElt.new p.1 p.2)).Sublist
      ((voteCounts cfg ds).map Prod.fst) := by
    have : (TopNVotingElt.track_id ∘ fun p : ℕ × ℕ => TopNVotingElt.new p.1 p.2) =
        Prod.fst := rfl
    rw [this]
    exact (List.filter_sublist _).map Prod.fst
  exact hkeys.sublist hsub

/-! ## Claim theorems -/

/-- C1: a candidate is retained by the filter step of `winners` iff its
`feat_dist` is present and, as a numeric value, at most `max_distance`;
an absent `feat_dist` is always excluded, and a `feat_dist` exactly equal
to a numeric `max_distance` is retained. -/
theorem filter_retains_iff (cfg : TopNVoting) (o : ObservationMetricResult)
    (ds : List ObservationMetricResult) :
    (o ∈ ds.filter (passesFilter cfg) ↔ o ∈ ds ∧ passesFilter cfg o = true)
  ∧ (passesFilter cfg o = true ↔
      ∃ q m : ℚ, o.feat_dist = some (F32.val q) ∧ cfg.max_distance = F32.val m ∧ q ≤ m)
  ∧ (o.feat_dist = none → passesFilter cfg o = false)
  ∧ (∀ m : ℚ, o.feat_dist = some (F32.val m) → cfg.max_distance = F32.val m →
      passesFilter cfg o = true) := by
  refine ⟨List.mem_filter, ⟨?_, ?_⟩, ?_, ?_⟩
  · intro hp
    unfold passesFilter at hp
    cases hd : o.feat_dist with
    | none => rw [hd] at hp; simp at hp
    | some f =>
      rw [hd] at hp
      cases f with
      | nan => simp [F32.fle] at hp
      | val q =>
        cases hm : cfg.max_distance with
        | nan => rw [hm] at hp; simp [F32.fle] at hp
        | val m =>
          rw [hm] at hp
          simp only [F32.fle, decide_eq_true_eq] at hp
          exact ⟨q, m, rfl, rfl, hp⟩
  · rintro ⟨q, m, hq, hm, hle⟩
    unfold passesFilter
    rw [hq, hm]
    simp [F32.fle, hle]
  · intro h
    unfold passesFilter
    rw [h]
  · intro m h1 h2
    unfold passesFilter
    rw [h1, h2]
    simp [F32.fle]

/-- Witness for C1: a candidate whose distance equals the bound 0.32 is
retained. -/
theorem filter_retains_iff_witness :
    passesFilter ⟨5, F32.val q032, 1⟩ ⟨1, none, some (F32.val q032)⟩ = true :=
  (filter_retains_iff ⟨5, F32.val q032, 1⟩ ⟨1, none, some (F32.val q032)⟩ []).2.2.2
    q032 rfl rfl

/-- C6: `winners` is total: the model is a total function for every
configuration; an empty input yields an empty output, and `topn = 0`
yields an empty output on every input. -/
theorem winners_total (cfg : TopNVoting) (ds : List ObservationMetricResult) :
    winners cfg [] = [] ∧ (cfg.topn = 0 → winners cfg ds = []) := by
  constructor
  · simp [winners, ranked, thresholded, voteCounts, sortedTracks, filteredTracks,
      List.insertionSort]
  · intro h
    simp [winners, h]

/-- Witness for C6: with `topn = 0` a nonempty input yields the empty
output. -/
theorem winners_total_witness :
    winners ⟨0, F32.val q032, 1⟩ [⟨1, none, some (F32.val q02)⟩] = [] :=
  (winners_total ⟨0, F32.val q032, 1⟩ [⟨1, none, some (F32.val q02)⟩]).2 rfl

/-- C9: a candidate whose `feat_dist` is present but NaN fails the
comparison with `max_distance`, is excluded by the filter, and
contributes nothing: prepending it leaves `winners` unchanged. -/
theorem nan_candidate_excluded (cfg : TopNVoting) (o : ObservationMetricResult)
    (ds : List ObservationMetricResult) (h : o.feat_dist = some F32.nan) :
    passesFilter cfg o = false ∧ F32.fle F32.nan cfg.max_distance = false ∧
    winners cfg (o :: ds) = winners cfg ds := by
  have hfle : F32.fle F32.nan cfg.max_distance = false := by
    cases cfg.max_distance <;> rfl
  have hpf : passesFilter cfg o = false := by
    unfold passesFilter
    rw [h]
    exact hfle
  refine ⟨hpf, hfle, ?_⟩
  have hft : filteredTracks cfg (o :: ds) = filteredTracks cfg ds := by
    unfold filteredTracks
    simp [List.filter_cons, hpf]
  simp only [winners, ranked, thresholded, voteCounts, sortedTracks, hft]

/-- Witness for C9: a concrete NaN candidate is excluded and changes
nothing. -/
theorem nan_candidate_excluded_witness :
    passesFilter ⟨5, F32.val q032, 1⟩ ⟨7, none, some F32.nan⟩ = false ∧
    F32.fle F32.nan (F32.val q032) = false ∧
    winners ⟨5, F32.val q032, 1⟩ [⟨7, none, some F32.nan⟩] =
      winners ⟨5, F32.val q032, 1⟩ [] :=
  nan_candidate_excluded ⟨5, F32.val q032, 1⟩ ⟨7, none, some F32.nan⟩ [] rfl

/-- C10: the comparator `r.votes.partial_cmp(&l.votes)` of the ranking
sort always returns `Some`, so its `unwrap` is unreachable; moreover
"not greater" is exactly the ranking order `byVotesDesc` used by the
model of the sort. -/
theorem rankCmp_never_none (l r : TopNVotingElt) :
    (∃ o, rankCmp l r = some o) ∧ (rankCmp l r ≠ some Ordering.gt ↔ byVotesDesc l r) := by
  unfold rankCmp natPartialCmp byVotesDesc
  constructor
  · split_ifs <;> exact ⟨_, rfl⟩
  · split_ifs with h1 h2 <;> simp <;> omega

/-- C2: the vote count of every output element is the number of filter-retained
candidates carrying its identity, and an identity with no retained
candidate never appears in the output. -/
theorem winners_votes_eq_count (cfg : TopNVoting) (ds : List ObservationMetricResult)
    (e : TopNVotingElt) (h : e ∈ winners cfg ds) :
    e.votes = (filteredTracks cfg ds).count e.track_id ∧
    e.track_id ∈ filteredTracks cfg ds := by
  have ht := (mem_thresholded cfg ds e).mp (mem_of_mem_winners cfg ds e h)
  exact ⟨ht.2.1, ht.1⟩

/-- Witness for C2 at a concrete input. -/
theorem winners_votes_eq_count_witness :
    (TopNVotingElt.new 1 1).votes =
      (filteredTracks ⟨5, F32.val q032, 1⟩
        [⟨1, some (F32.val 0), some (F32.val q02)⟩]).count
        (TopNVotingElt.new 1 1).track_id ∧
    (TopNVotingElt.new 1 1).track_id ∈
      filteredTracks ⟨5, F32.val q032, 1⟩ [⟨1, some (F32.val 0), some (F32.val q02)⟩] :=
  winners_votes_eq_count ⟨5, F32.val q032, 1⟩
    [⟨1, some (F32.val 0), some (F32.val q02)⟩] (TopNVotingElt.new 1 1) (by decide)

/-- C3: an identity whose aggregated vote count is below `min_votes` is
absent from the output; an identity among the retained candidates whose
count equals `min_votes` survives the threshold step. -/
theorem min_votes_threshold (cfg : TopNVoting) (ds : List ObservationMetricResult)
    (t : ℕ) :
    ((filteredTracks cfg ds).count t < cfg.min_votes →
      ∀ e ∈ winners cfg ds, e.track_id ≠ t) ∧
    (t ∈ filteredTracks cfg ds → (filteredTracks cfg ds).count t = cfg.min_votes →
      TopNVotingElt.new t cfg.min_votes ∈ thresholded cfg ds) := by
  constructor
  · intro hlt e he heq
    have ht := (mem_thresholded cfg ds e).mp (mem_of_mem_winners cfg ds e he)
    rw [heq] at ht
    have h1 := ht.2.1
    have h2 := ht.2.2
    omega
  · intro hmem hcount
    exact (mem_thresholded cfg ds (TopNVotingElt.new t cfg.min_votes)).mpr
      ⟨hmem, hcount.symm, le_refl _⟩

/-- Witness for C3: with `min_votes = 1`, an identity with exactly one
retained candidate survives the threshold step. -/
theorem min_votes_threshold_witness :
    TopNVotingElt.new 1 1 ∈
      thresholded ⟨5, F32.val q032, 1⟩ [⟨1, some (F32.val 0), some (F32.val q02)⟩] :=
  (min_votes_threshold ⟨5, F32.val q032, 1⟩
    [⟨1, some (F32.val 0), some (F32.val q02)⟩] 1).2 (by decide) (by decide)

/-- C4: the output of `winners` is distinctly keyed by track identity and
ordered by descending vote count. -/
theorem winners_nodup_sorted (cfg : TopNVoting) (ds : List ObservationMetricResult) :
    ((winners cfg ds).map TopNVotingElt.track_id).Nodup ∧
    (winners cfg ds).Pairwise (fun l r => r.votes ≤ l.votes) := by
  constructor
  · have hperm : ((ranked cfg ds).map TopNVotingElt.track_id).Perm
        ((thresholded cfg ds).map TopNVotingElt.track_id) :=
      (ranked_perm cfg ds).map _
    have hnodup : ((ranked cfg ds).map TopNVotingElt.track_id).Nodup :=
      hperm.nodup_iff.mpr (thresholded_keys_nodup cfg ds)
    have hsub : ((winners cfg ds).map TopNVotingElt.track_id).Sublist
        ((ranked cfg ds).map TopNVotingElt.track_id) :=
      (List.take_sublist _ _).map _
    exact hnodup.sublist hsub
  · have hsorted : (ranked cfg ds).Pairwise byVotesDesc :=
      List.sorted_insertionSort _ _
    exact List.Pairwise.sublist (List.take_sublist _ _) hsorted

/-- C5: the output length is at most `min topn (surviving identities)`,
and when at most `topn` identities survive the threshold, all of them are
returned (truncation changes nothing, up to the ranking order). -/
theorem winners_length_bound (cfg : TopNVoting) (ds : List ObservationMetricResult) :
    (winners cfg ds).length ≤ min cfg.topn (thresholded cfg ds).length ∧
    ((thresholded cfg ds).length ≤ cfg.topn →
      (winners cfg ds).Perm (thresholded cfg ds)) := by
  have hlen : (ranked cfg ds).length = (thresholded cfg ds).length :=
    (ranked_perm cfg ds).length_eq
  constructor
  · rw [winners, List.length_take, hlen]
  · intro h
    rw [winners, List.take_of_length_le (by rw [hlen]; exact h)]
    exact ranked_perm cfg ds

/-- Witness for C5: a single surviving identity with `topn = 5` is
returned in full. -/
theorem winners_length_bound_witness :
    (winners ⟨5, F32.val q032, 1⟩ [⟨1, some (F32.val 0), some (F32.val q02)⟩]).Perm
      (thresholded ⟨5, F32.val q032, 1⟩ [⟨1, some (F32.val 0), some (F32.val q02)⟩]) :=
  (winners_length_bound ⟨5, F32.val q032, 1⟩
    [⟨1, some (F32.val 0), some (F32.val q02)⟩]).2 (by decide)

/-- Canonical vote counts are a function of the input multiset: any
permutation of the input yields the identical counts list. -/
lemma voteCounts_eq_of_perm (cfg : TopNVoting)
    (ds₁ ds₂ : List ObservationMetricResult) (h : ds₁.Perm ds₂) :
    voteCounts cfg ds₁ = voteCounts cfg ds₂ := by
  have hft : (filteredTracks cfg ds₁).Perm (filteredTracks cfg ds₂) :=
    (h.filter _).map _
  have hst : sortedTracks cfg ds₁ = sortedTracks cfg ds₂ := by
    refine List.eq_of_perm_of_sorted ?_ (sortedTracks_sorted cfg ds₁)
      (sortedTracks_sorted cfg ds₂)
    exact (sortedTracks_perm cfg ds₁).trans (hft.trans (sortedTracks_perm cfg ds₂).symm)
  simp only [voteCounts, hst]

/-- The rational value 0.21 (kernel-reducible representation). -/
def q021 : ℚ := Rat.mk' 21 100 (by decide) (by decide)

/-- The rational value 0.22 (kernel-reducible representation). -/
def q022 : ℚ := Rat.mk' 11 50 (by decide) (by decide)

/-- The rational value 0.23 (kernel-reducible representation). -/
def q023 : ℚ := Rat.mk' 23 100 (by decide) (by decide)

/-- The rational value 0.24 (kernel-reducible representation). -/
def q024 : ℚ := Rat.mk' 6 25 (by decide) (by decide)

/-- The rational value 0.25 (kernel-reducible representation). -/
def q025 : ℚ := Rat.mk' 1 4 (by decide) (by decide)

/-- The rational value 0.3 (kernel-reducible representation). -/
def q03 : ℚ := Rat.mk' 3 10 (by decide) (by decide)

/-- The rational value 0.5 (kernel-reducible representation). -/
def q05 : ℚ := Rat.mk' 1 2 (by decide) (by decide)

/-- The configuration of the `default_voting` test:
`topn = 5`, `max_distance = 0.32`, `min_votes = 1`. -/
def cfgE : TopNVoting := ⟨5, F32.val q032, 1⟩

/-- The 12-candidate input of the final `default_voting` test case:
identities 1–6, two entries each, where only the second distance of
identity 6
(0.5) above the 0.32 bound. -/
def obsE : List ObservationMetricResult :=
  [⟨1, some (F32.val 0), some (F32.val q02)⟩,
   ⟨1, some (F32.val 0), some (F32.val q022)⟩,
   ⟨2, some (F32.val 0), some (F32.val q021)⟩,
   ⟨2, some (F32.val 0), some (F32.val q02)⟩,
   ⟨3, some (F32.val 0), some (F32.val q022)⟩,
   ⟨3, some (F32.val 0), some (F32.val q02)⟩,
   ⟨4, some (F32.val 0), some (F32.val q023)⟩,
   ⟨4, some (F32.val 0), some (F32.val q03)⟩,
   ⟨5, some (F32.val 0), some (F32.val q024)⟩,
   ⟨5, some (F32.val 0), some (F32.val q03)⟩,
   ⟨6, some (F32.val 0), some (F32.val q025)⟩,
   ⟨6, some (F32.val 0), some (F32.val q05)⟩]

/-- C8: on the 12-candidate scenario with `(topn = 5, max_distance = 0.32,
min_votes = 1)`, `winners` returns exactly the five identities 1–5, each
with 2 votes; identity 6 is absent. -/
theorem scenario_e_winners :
    winners cfgE obsE =
      [TopNVotingElt.new 1 2, TopNVotingElt.new 2 2, TopNVotingElt.new 3 2,
       TopNVotingElt.new 4 2, TopNVotingElt.new 5 2] := by
  decide

/-! ## Emission-order-parameterized pipeline -/

/-- Admissible emission orders of the itertools `counts()` hash map: the
map holds exactly one `(id, multiplicity)` pair per distinct retained id,
and the per-instance randomized Rust `HashMap` may emit those pairs in
any order, i.e. in any permutation of the canonical ascending-id list. -/
def IsCountsEmission (cfg : TopNVoting) (ds : List ObservationMetricResult)
    (em : List (ℕ × ℕ)) : Prop :=
  em.Perm (voteCounts cfg ds)

/-- The `counts` local of `winners` computed from one emission order `em`
of the counts map. -/
def thresholdedFrom (cfg : TopNVoting) (em : List (ℕ × ℕ)) : List TopNVotingElt :=
  (em.filter (fun p => cfg.min_votes ≤ p.2)).map (fun p => TopNVotingElt.new p.1 p.2)

/-- The ranked list computed from one emission order of the counts map. -/
def rankedFrom (cfg : TopNVoting) (em : List (ℕ × ℕ)) : List TopNVotingElt :=
  List.insertionSort byVotesDesc (thresholdedFrom cfg em)

/-- `winners` computed from one emission order of the counts map. -/
def winnersFrom (cfg : TopNVoting) (em : List (ℕ × ℕ)) : List TopNVotingElt :=
  (rankedFrom cfg em).take cfg.topn

/-- The deterministic model is the canonical-emission instance of the
parameterized pipeline. -/
lemma winners_eq_winnersFrom (cfg : TopNVoting) (ds : List ObservationMetricResult) :
    winners cfg ds = winnersFrom cfg (voteCounts cfg ds) := rfl

lemma rankedFrom_perm (cfg : TopNVoting) (em : List (ℕ × ℕ)) :
    (rankedFrom cfg em).Perm (thresholdedFrom cfg em) :=
  List.perm_insertionSort _ _

/-- The configuration of the tie-truncation counterexample: `topn = 1`,
`max_distance = 0.32`, `min_votes = 1`. -/
def cfgT : TopNVoting := ⟨1, F32.val q032, 1⟩

/-- Two candidates with distinct ids, each gathering a single vote. -/
def dsT : List ObservationMetricResult :=
  [⟨1, some (F32.val 0), some (F32.val q02)⟩,
   ⟨2, some (F32.val 0), some (F32.val q02)⟩]

/-- Counterexample to C7 as stated: with `topn = 1` and two identities of
one vote each, two admissible emission orders of the same counts map (two
calls on the same input, or on a permutation of it) return outputs made
of different `(track_id, votes)` pairs — not merely reordered ties: the
tie class of vote count 1 straddles the `topn` cut. -/
theorem winners_tie_cut_not_set_stable :
    IsCountsEmission cfgT dsT [(1, 1), (2, 1)] ∧
    IsCountsEmission cfgT dsT [(2, 1), (1, 1)] ∧
    winnersFrom cfgT [(1, 1), (2, 1)] = [TopNVotingElt.new 1 1] ∧
    winnersFrom cfgT [(2, 1), (1, 1)] = [TopNVotingElt.new 2 1] ∧
    TopNVotingElt.new 2 1 ∈ winnersFrom cfgT [(2, 1), (1, 1)] ∧
    TopNVotingElt.new 2 1 ∉ winnersFrom cfgT [(1, 1), (2, 1)] := by
  refine ⟨List.Perm.of_eq (by decide),
    (List.Perm.swap _ _ _).trans (List.Perm.of_eq (by decide)),
    by decide, by decide, by decide, by decide⟩

/-- C7 (amended): across calls on the same input or on any permutation of
it, and across any admissible emission orders of the counts map, the
threshold survivors form the same multiset of `(track_id, votes)` pairs;
consequently, whenever the survivors fit within `topn` (truncation
removes nothing), the outputs contain exactly the same set of pairs,
differing at most in the relative order of equal vote counts. -/
theorem winners_multiset_stable (cfg : TopNVoting)
    (ds₁ ds₂ : List ObservationMetricResult) (em₁ em₂ : List (ℕ × ℕ))
    (hp : ds₁.Perm ds₂) (h1 : IsCountsEmission cfg ds₁ em₁)
    (h2 : IsCountsEmission cfg ds₂ em₂) :
    (thresholdedFrom cfg em₁).Perm (thresholdedFrom cfg em₂) ∧
    ((thresholdedFrom cfg em₁).length ≤ cfg.topn →
      (winnersFrom cfg em₁).Perm (winnersFrom cfg em₂)) := by
  have hvc := voteCounts_eq_of_perm cfg ds₁ ds₂ hp
  have hem : em₁.Perm em₂ := by
    refine h1.trans ?_
    rw [hvc]
    exact h2.symm
  have hth : (thresholdedFrom cfg em₁).Perm (thresholdedFrom cfg em₂) :=
    (hem.filter _).map _
  refine ⟨hth, fun hlen => ?_⟩
  have hlen₂ : (thresholdedFrom cfg em₂).length ≤ cfg.topn := by
    rw [← hth.length_eq]
    exact hlen
  unfold winnersFrom
  rw [List.take_of_length_le (by rw [(rankedFrom_perm cfg em₁).length_eq]; exact hlen),
    List.take_of_length_le (by rw [(rankedFrom_perm cfg em₂).length_eq]; exact hlen₂)]
  exact (rankedFrom_perm cfg em₁).trans (hth.trans (rankedFrom_perm cfg em₂).symm)

/-- Witness for amended C7: permuted input, two different emission orders,
`topn = 5` wide enough for both survivors — same survivor multiset and
same output set. -/
theorem winners_multiset_stable_witness :
    (thresholdedFrom ⟨5, F32.val q032, 1⟩ [(1, 1), (2, 1)]).Perm
      (thresholdedFrom ⟨5, F32.val q032, 1⟩ [(2, 1), (1, 1)]) ∧
    (winnersFrom ⟨5, F32.val q032, 1⟩ [(1, 1), (2, 1)]).Perm
      (winnersFrom ⟨5, F32.val q032, 1⟩ [(2, 1), (1, 1)]) := by
  have h := winners_multiset_stable ⟨5, F32.val q032, 1⟩
    [⟨1, some (F32.val 0), some (F32.val q02)⟩,
     ⟨2, some (F32.val 0), some (F32.val q02)⟩]
    [⟨2, some (F32.val 0), some (F32.val q02)⟩,
     ⟨1, some (F32.val 0), some (F32.val q02)⟩]
    [(1, 1), (2, 1)] [(2, 1), (1, 1)]
    (List.Perm.swap _ _ _)
    (List.Perm.of_eq (by decide))
    ((List.Perm.swap _ _ _).trans (List.Perm.of_eq (by decide)))
  exact ⟨h.1, h.2 (by decide)⟩
